import Mathlib

/-!
Shallow embedding of the JSON-to-LUT converter (src/main.py).

The computational core is `convert_json_to_lut`: it reads
`json_data["data"]["s"]["colorBalance"]` (elements 0 and 1) and
`json_data["name"]`, generates a fixed 33x33x33 grid of color-balanced RGB
samples, and serializes them as a ".cube" text document.  Any exception is
turned into a `ValueError`, modelled here as `Except.error`.

Numeric values are modelled as exact rationals (`ℚ`); Python's `f"{v:.6f}"`
formatting is modelled as correct rounding of the rational to six decimal
places, ties to even.  Python `bool` values count as numbers (`True == 1`),
as they do under Python multiplication.
-/

/-- A parsed JSON value, as produced by Python's `json.loads`. -/
inductive JValue where
  | null
  | bool (b : Bool)
  | num (q : ℚ)
  | str (s : String)
  | arr (elems : List JValue)
  | obj (fields : List (String × JValue))

/-- First-match association-list lookup, modelling Python `dict[key]`. -/
def assocFind : List (String × JValue) → String → Option JValue
  | [], _ => none
  | (k, v) :: rest, key => if k = key then some v else assocFind rest key

/-- `j[key]` on a JSON value: succeeds only on objects that carry the key
(anything else raises in Python, i.e. yields `none` here). -/
def JValue.lookup : JValue → String → Option JValue
  | .obj fs, key => assocFind fs key
  | _, _ => none

/-- `j[i]` for an integer index: succeeds only on arrays that are long
enough (anything else raises in Python, i.e. yields `none` here). -/
def JValue.index : JValue → ℕ → Option JValue
  | .arr xs, i => xs[i]?
  | _, _ => none

/-- A JSON value usable as a factor in `float * x`: numbers, and Python
booleans (`True` multiplies as `1`, `False` as `0`).  Anything else raises
`TypeError` in Python, i.e. yields `none` here. -/
def JValue.asNum : JValue → Option ℚ
  | .num q => some q
  | .bool b => some (cond b 1 0)
  | _ => none

/-- `json_data["data"]["s"]["colorBalance"]` (main.py line 35). -/
def getBalance (j : JValue) : Option JValue :=
  ((j.lookup "data").bind (·.lookup "s")).bind (·.lookup "colorBalance")

/-- The two balance factors the code actually reads: `balance[0]` and
`balance[1]` (main.py lines 17-19), as numbers. -/
def extractBalance (j : JValue) : Option (ℚ × ℚ) := do
  let bal ← getBalance j
  let b0 ← (bal.index 0).bind JValue.asNum
  let b1 ← (bal.index 1).bind JValue.asNum
  pure (b0, b1)

/-- `json_data['name']` (main.py lines 41 and 50). -/
def getName (j : JValue) : Option JValue := j.lookup "name"

/-- Python `repr` of a JSON value (deterministic rendering; exact for the
scalar cases, which are the only ones the claims exercise). -/
def pyRepr : JValue → String
  | .null => "None"
  | .bool b => cond b "True" "False"
  | .num q => toString q
  | .str s => "\x27" ++ s ++ "\x27"
  | .arr xs => "[" ++ String.intercalate ", " (xs.attach.map fun x => pyRepr x.1) ++ "]"
  | .obj fs =>
      "\x7b" ++
        String.intercalate ", "
          (fs.attach.map fun kv => "\x27" ++ kv.1.1 ++ "\x27: " ++ pyRepr kv.1.2) ++
      "\x7d"
decreasing_by
  · have := List.sizeOf_lt_of_mem x.2
    simp at this ⊢
    omega
  · rcases kv with ⟨⟨k, v⟩, hm⟩
    have := List.sizeOf_lt_of_mem hm
    simp at this ⊢
    omega

/-- Python `str` of a JSON value, as used by the f-string for the title:
a string passes through unchanged. -/
def pyStr : JValue → String
  | .str s => s
  | v => pyRepr v

/-- `lut_size = 33` (main.py line 12). -/
def lut_size : ℕ := 33

/-- `apply_color_balance` (main.py lines 14-20): note the blue channel is
scaled by `balance[1]`, the green factor. -/
def apply_color_balance (r g b b0 b1 : ℚ) : ℚ × ℚ × ℚ :=
  (r * b0, g * b1, b * b1)

/-- The grid entry stored at `lut[r, g, b]` (main.py lines 26-37):
coordinates normalized by `lut_size - 1`, then color balance applied. -/
def lut (b0 b1 : ℚ) (r g b : ℕ) : ℚ × ℚ × ℚ :=
  apply_color_balance
    ((r : ℚ) / ((lut_size : ℚ) - 1))
    ((g : ℚ) / ((lut_size : ℚ) - 1))
    ((b : ℚ) / ((lut_size : ℚ) - 1))
    b0 b1

/-- Decimal digits of a natural number, most significant first. -/
def natDigits (n : ℕ) : List ℕ :=
  if n < 10 then [n] else natDigits (n / 10) ++ [n % 10]
decreasing_by
  exact Nat.div_lt_self (by omega) (by omega)

/-- Decimal string of a natural number. -/
def natStr (n : ℕ) : String :=
  String.mk ((natDigits n).map Nat.digitChar)

/-- A natural number printed as exactly six decimal digits, left-padded
with zeros (the fractional part of `:.6f`). -/
def padSix (n : ℕ) : String :=
  String.mk (List.replicate (6 - (natStr n).length) '0') ++ natStr n

/-- Round a rational to the nearest integer, ties to even. -/
def roundHalfEven (q : ℚ) : ℤ :=
  let f := ⌊q⌋
  if q - f < 1/2 then f
  else if q - f > 1/2 then f + 1
  else if f % 2 = 0 then f else f + 1

/-- Python `f"{v:.6f}"`: fixed-point decimal with exactly six digits after
the decimal point (correct rounding of the exact rational value). -/
def format6 (q : ℚ) : String :=
  let m := (roundHalfEven (|q| * 1000000)).toNat
  (if q < 0 then "-" else "") ++ natStr (m / 1000000) ++ "." ++ padSix (m % 1000000)

/-- One data line of the document (main.py line 48): three formatted
channel values separated by single spaces. -/
def dataLine (e : ℚ × ℚ × ℚ) : String :=
  format6 e.1 ++ " " ++ format6 e.2.1 ++ " " ++ format6 e.2.2

/-- All data lines, in loop order (main.py lines 44-48): red outermost,
then green, then blue innermost. -/
def dataLines (b0 b1 : ℚ) : List String :=
  (List.range lut_size).flatMap fun r =>
    (List.range lut_size).flatMap fun g =>
      (List.range lut_size).map fun b => dataLine (lut b0 b1 r g b)

/-- The lines written to the output buffer (main.py lines 41-48): the
quoted title line, the size declaration, then the data lines. -/
def cubeLines (title : String) (b0 b1 : ℚ) : List String :=
  ("TITLE \"" ++ title ++ "\"") :: ("LUT_3D_SIZE " ++ natStr lut_size) :: dataLines b0 b1

/-- `output.getvalue()`: each written line is terminated by a newline. -/
def cubeText (title : String) (b0 b1 : ℚ) : String :=
  String.join ((cubeLines title b0 b1).map fun l => l ++ "\n")

/-- `convert_json_to_lut` (main.py lines 8-52): returns the document text
and the raw name on success; any exception becomes a `ValueError`, i.e. an
`Except.error` with no output at all.  The balance factors are read (inside
the generation loop) before the name is read, so a bad balance errors
first. -/
def convert_json_to_lut (j : JValue) : Except String (String × String) :=
  match extractBalance j with
  | none => .error "Error processing JSON: missing or invalid colorBalance"
  | some (b0, b1) =>
    match getName j with
    | none => .error "Error processing JSON: missing name"
    | some v => .ok (cubeText (pyStr v) b0 b1, pyStr v)

/-- The suggested download file name (main.py line 210):
`filename.replace(' ', '_') + ".cube"` — only the space character U+0020
is replaced. -/
def download_name (filename : String) : String :=
  String.mk (filename.data.map fun c => if c = ' ' then '_' else c) ++ ".cube"

/-- Modelled from the spec's words, for comparison with `download_name`
(claim C9): replace every whitespace character of the title with an
underscore and append ".cube". -/
def specFileName (title : String) : String :=
  String.mk (title.data.map fun c => if c.isWhitespace then '_' else c) ++ ".cube"

/-- Number of newline characters in a string; a text consisting of exactly
`k` newline-terminated lines has exactly `k` of them. -/
def countNewlines (s : String) : ℕ := s.data.count '\n'

/-! ### Concrete input documents used to exercise the converter -/

/-- The spec's concrete scenario:
`{"name": "Test", "data": {"s": {"colorBalance": [1.0, 0.5, 0.5]}}}`. -/
def jTest : JValue :=
  .obj [("name", .str "Test"),
        ("data", .obj [("s", .obj [("colorBalance", .arr [.num 1, .num (1/2), .num (1/2)])])])]

/-- An input whose name contains a newline character. -/
def jNL : JValue :=
  .obj [("name", .str "a\nb"),
        ("data", .obj [("s", .obj [("colorBalance", .arr [.num 1, .num 1, .num 1])])])]

/-- An input whose name contains a double quote and a newline. -/
def jQuoteNL : JValue :=
  .obj [("name", .str "A\"B\nC"),
        ("data", .obj [("s", .obj [("colorBalance", .arr [.num 1, .num 1, .num 1])])])]

/-- An input whose name is the empty string. -/
def jEmptyName : JValue :=
  .obj [("name", .str ""),
        ("data", .obj [("s", .obj [("colorBalance", .arr [.num 1, .num 1, .num 1])])])]

/-- An input whose name is a single space (whitespace-only after trimming). -/
def jSpaceName : JValue :=
  .obj [("name", .str " "),
        ("data", .obj [("s", .obj [("colorBalance", .arr [.num 1, .num 1, .num 1])])])]

/-- An input whose name contains an interior space. -/
def jSpacedName : JValue :=
  .obj [("name", .str "My LUT"),
        ("data", .obj [("s", .obj [("colorBalance", .arr [.num 1, .num 1, .num 1])])])]

/-- An input with a `colorBalance` list of exactly two numeric elements. -/
def jTwo : JValue :=
  .obj [("name", .str "x"),
        ("data", .obj [("s", .obj [("colorBalance", .arr [.num 2, .num 3])])])]

/-- The same name and first two balance factors as `jTwo`, but with extra
fields everywhere and a different third balance element. -/
def jTwoX : JValue :=
  .obj [("name", .str "x"),
        ("extra", .null),
        ("data", .obj [("s", .obj [("colorBalance", .arr [.num 2, .num 3, .num 999]),
                                   ("other", .bool true)]),
                       ("t", .num 7)])]

/-- An input with no `data.s.colorBalance` at all. -/
def jNoBal : JValue := .obj [("name", .str "x")]

/-! ### Character-level facts about the number formatting -/

theorem natDigits_lt10 (n : ℕ) : ∀ d ∈ natDigits n, d < 10 := by
  induction n using Nat.strong_induction_on with
  | _ n ih =>
    rw [natDigits]
    split
    · intro d hd
      simp only [List.mem_singleton] at hd
      omega
    · intro d hd
      rcases List.mem_append.mp hd with h1 | h2
      · exact ih (n / 10) (Nat.div_lt_self (by omega) (by omega)) d h1
      · simp only [List.mem_singleton] at h2
        omega

theorem natDigits_length_le : ∀ k n : ℕ, 1 ≤ k → n < 10 ^ k → (natDigits n).length ≤ k := by
  intro k
  induction k with
  | zero => intro n h; omega
  | succ k ih =>
    intro n _ hn
    rw [natDigits]
    split
    · simp
    · rename_i h
      have hk : 1 ≤ k := by
        rcases Nat.eq_zero_or_pos k with rfl | hp
        · simp at hn; omega
        · exact hp
      have hdiv : n / 10 < 10 ^ k := by
        rw [Nat.div_lt_iff_lt_mul (by omega : 0 < 10)]
        calc n < 10 ^ (k + 1) := hn
          _ = 10 ^ k * 10 := pow_succ 10 k
      have := ih (n / 10) hk hdiv
      rw [List.length_append]
      simp only [List.length_singleton]
      omega

theorem digitChar_isDigit (d : ℕ) (h : d < 10) : (Nat.digitChar d).isDigit = true := by
  interval_cases d <;> decide

theorem natStr_data (n : ℕ) : (natStr n).data = (natDigits n).map Nat.digitChar := rfl

theorem natStr_isDigit (n : ℕ) : ∀ c ∈ (natStr n).data, c.isDigit = true := by
  intro c hc
  rw [natStr_data] at hc
  obtain ⟨d, hd, rfl⟩ := List.mem_map.mp hc
  exact digitChar_isDigit d (natDigits_lt10 n d hd)

theorem natStr_length (n : ℕ) : (natStr n).length = (natDigits n).length := by
  rw [natStr, String.length_mk, List.length_map]

theorem padSix_isDigit (n : ℕ) : ∀ c ∈ (padSix n).data, c.isDigit = true := by
  intro c hc
  rw [padSix, String.data_append] at hc
  rcases List.mem_append.mp hc with h1 | h2
  · have : c ∈ List.replicate (6 - (natStr n).length) '0' := h1
    rcases List.eq_of_mem_replicate this with rfl
    decide
  · exact natStr_isDigit n c h2

theorem padSix_length (n : ℕ) (h : n < 1000000) : (padSix n).length = 6 := by
  have hle : (natStr n).length ≤ 6 := by
    rw [natStr_length]
    exact natDigits_length_le 6 n (by omega) (by norm_num; omega)
  rw [padSix, String.length_append, String.length_mk, List.length_replicate]
  omega

theorem format6_eq (q : ℚ) :
    format6 q =
      (if q < 0 then "-" else "") ++
        natStr ((roundHalfEven (|q| * 1000000)).toNat / 1000000) ++ "." ++
        padSix ((roundHalfEven (|q| * 1000000)).toNat % 1000000) := rfl

theorem format6_chars (q : ℚ) :
    ∀ c ∈ (format6 q).data, c.isDigit = true ∨ c = '.' ∨ c = '-' := by
  intro c hc
  rw [format6_eq, String.data_append, String.data_append, String.data_append] at hc
  rcases List.mem_append.mp hc with hc' | h4
  rcases List.mem_append.mp hc' with hc'' | h3
  rcases List.mem_append.mp hc'' with h1 | h2
  · split at h1
    · have : c ∈ ['-'] := h1
      simp only [List.mem_singleton] at this
      right; right; exact this
    · have : c ∈ ([] : List Char) := h1
      simp at this
  · exact Or.inl (natStr_isDigit _ c h2)
  · have : c ∈ ['.'] := h3
    simp only [List.mem_singleton] at this
    right; left; exact this
  · exact Or.inl (padSix_isDigit _ c h4)

theorem format6_no_newline (q : ℚ) : '\n' ∉ (format6 q).data := by
  intro h
  rcases format6_chars q '\n' h with h' | h' | h' <;> simp at h'

theorem format6_no_space (q : ℚ) : ' ' ∉ (format6 q).data := by
  intro h
  rcases format6_chars q ' ' h with h' | h' | h' <;> simp at h'

/-! ### Newline counting -/

theorem countNewlines_append (a b : String) :
    countNewlines (a ++ b) = countNewlines a + countNewlines b := by
  rw [countNewlines, countNewlines, countNewlines, String.data_append, List.count_append]

theorem countNewlines_foldl (L : List String) (acc : String) :
    countNewlines (L.foldl (· ++ ·) acc) =
      countNewlines acc + (L.map countNewlines).sum := by
  induction L generalizing acc with
  | nil => simp
  | cons a L ih =>
    rw [List.foldl_cons, ih, countNewlines_append]
    simp [Nat.add_assoc]

theorem countNewlines_join (L : List String) :
    countNewlines (String.join L) = (L.map countNewlines).sum := by
  rw [String.join, countNewlines_foldl]
  have : countNewlines "" = 0 := rfl
  rw [this, Nat.zero_add]

theorem countNewlines_dataLine (e : ℚ × ℚ × ℚ) : countNewlines (dataLine e) = 0 := by
  rw [dataLine, countNewlines]
  rw [String.data_append, String.data_append, String.data_append, String.data_append]
  rw [List.count_eq_zero]
  intro h
  rcases List.mem_append.mp h with h' | h5
  rcases List.mem_append.mp h' with h'' | h4
  rcases List.mem_append.mp h'' with h''' | h3
  rcases List.mem_append.mp h''' with h1 | h2
  · exact format6_no_newline _ h1
  · have : '\n' ∈ [' '] := h2
    simp at this
  · exact format6_no_newline _ h3
  · have : '\n' ∈ [' '] := h4
    simp at this
  · exact format6_no_newline _ h5

theorem dataLines_length (b0 b1 : ℚ) : (dataLines b0 b1).length = 35937 := by
  rw [dataLines]
  rw [List.length_flatMap]
  have inner : ∀ r : ℕ,
      ((List.range lut_size).flatMap fun g =>
        (List.range lut_size).map fun b => dataLine (lut b0 b1 r g b)).length = 1089 := by
    intro r
    rw [List.length_flatMap]
    have : ∀ g : ℕ,
        ((List.range lut_size).map fun b => dataLine (lut b0 b1 r g b)).length = 33 := by
      intro g
      rw [List.length_map, List.length_range, lut_size]
    simp only [List.map_map, Function.comp_def, this]
    simp [List.map_const', List.sum_replicate, lut_size]
  simp only [List.map_map, Function.comp_def, inner]
  simp [List.map_const', List.sum_replicate, lut_size]

theorem natStr_no_newline (n : ℕ) : '\n' ∉ (natStr n).data := by
  intro h
  have := natStr_isDigit n '\n' h
  simp at this

theorem mem_dataLines (b0 b1 : ℚ) (l : String) (h : l ∈ dataLines b0 b1) :
    ∃ r g b : ℕ, r < 33 ∧ g < 33 ∧ b < 33 ∧ l = dataLine (lut b0 b1 r g b) := by
  rw [dataLines] at h
  obtain ⟨r, hr, h⟩ := List.mem_flatMap.mp h
  obtain ⟨g, hg, h⟩ := List.mem_flatMap.mp h
  obtain ⟨b, hb, h⟩ := List.mem_map.mp h
  exact ⟨r, g, b, List.mem_range.mp hr, List.mem_range.mp hg, List.mem_range.mp hb, h.symm⟩

theorem dataLine_mem (b0 b1 : ℚ) (r g b : ℕ) (hr : r < 33) (hg : g < 33) (hb : b < 33) :
    dataLine (lut b0 b1 r g b) ∈ dataLines b0 b1 := by
  rw [dataLines]
  refine List.mem_flatMap.mpr ⟨r, List.mem_range.mpr hr, ?_⟩
  refine List.mem_flatMap.mpr ⟨g, List.mem_range.mpr hg, ?_⟩
  exact List.mem_map.mpr ⟨b, List.mem_range.mpr hb, rfl⟩

theorem countNewlines_cubeText (t : String) (b0 b1 : ℚ) :
    countNewlines (cubeText t b0 b1) = countNewlines t + 35939 := by
  rw [cubeText, countNewlines_join, cubeLines]
  rw [List.map_map]
  simp only [Function.comp_def]
  rw [List.map_cons, List.map_cons, List.sum_cons, List.sum_cons]
  have h1 : countNewlines ("TITLE \"" ++ t ++ "\"" ++ "\n") = countNewlines t + 1 := by
    rw [countNewlines_append, countNewlines_append, countNewlines_append]
    have ha : countNewlines "TITLE \"" = 0 := by decide
    have hb : countNewlines "\"" = 0 := by decide
    have hc : countNewlines "\n" = 1 := by decide
    omega
  have h2 : countNewlines ("LUT_3D_SIZE " ++ natStr lut_size ++ "\n") = 1 := by
    rw [countNewlines_append, countNewlines_append]
    have ha : countNewlines "LUT_3D_SIZE " = 0 := by decide
    have hb : countNewlines (natStr lut_size) = 0 :=
      List.count_eq_zero.mpr (natStr_no_newline lut_size)
    have hc : countNewlines "\n" = 1 := by decide
    omega
  have h3 : ((dataLines b0 b1).map fun l => countNewlines (l ++ "\n")).sum = 35937 := by
    have heach : ∀ l ∈ dataLines b0 b1, countNewlines (l ++ "\n") = 1 := by
      intro l hl
      obtain ⟨r, g, b, _, _, _, rfl⟩ := mem_dataLines b0 b1 l hl
      rw [countNewlines_append, countNewlines_dataLine]
      decide
    rw [List.map_congr_left heach]
    rw [List.map_const', List.sum_replicate, smul_eq_mul, Nat.mul_one]
    exact dataLines_length b0 b1
  omega

/-! ### Positional indexing into the flattened loop nest -/

theorem flatMap_getElem? {α β : Type} (l : List α) (f : α → List β) (m : ℕ)
    (hm : ∀ a ∈ l, (f a).length = m) (i j : ℕ) (hi : i < l.length) (hj : j < m) :
    (l.flatMap f)[i * m + j]? = (f (l.get ⟨i, hi⟩))[j]? := by
  induction l generalizing i with
  | nil => simp at hi
  | cons a l ih =>
    rw [List.flatMap_cons]
    cases i with
    | zero =>
      rw [Nat.zero_mul, Nat.zero_add]
      exact List.getElem?_append_left (by rw [hm a (List.mem_cons_self a l)]; exact hj)
    | succ i =>
      have ha : (f a).length = m := hm a (List.mem_cons_self a l)
      have hlen : (f a).length ≤ (i + 1) * m + j := by
        rw [ha]
        have : (i + 1) * m = m + i * m := by ring
        omega
      rw [List.getElem?_append_right hlen, ha]
      have hidx : (i + 1) * m + j - m = i * m + j := by
        have : (i + 1) * m = m + i * m := by ring
        omega
      rw [hidx]
      have hi' : i < l.length := by
        simp only [List.length_cons] at hi
        omega
      have := ih (fun a' ha' => hm a' (List.mem_cons_of_mem a ha')) i hi'
      rw [this]
      rfl

theorem range_get (n i : ℕ) (h : i < (List.range n).length) :
    (List.range n).get ⟨i, h⟩ = i := by
  simp

theorem dataLines_inner_length (b0 b1 : ℚ) (r : ℕ) :
    ((List.range lut_size).flatMap fun g =>
      (List.range lut_size).map fun b => dataLine (lut b0 b1 r g b)).length = 1089 := by
  rw [List.length_flatMap]
  have h33 : ∀ g : ℕ,
      ((List.range lut_size).map fun b => dataLine (lut b0 b1 r g b)).length = 33 := by
    intro g
    rw [List.length_map, List.length_range, lut_size]
  simp only [List.map_map, Function.comp_def, h33]
  simp [List.map_const', List.sum_replicate, lut_size]

theorem dataLines_getElem? (b0 b1 : ℚ) (r g b : ℕ)
    (hr : r < 33) (hg : g < 33) (hb : b < 33) :
    (dataLines b0 b1)[r * 1089 + g * 33 + b]? = some (dataLine (lut b0 b1 r g b)) := by
  have hidx : r * 1089 + g * 33 + b = r * 1089 + (g * 33 + b) := by omega
  rw [dataLines, hidx]
  have hrlen : r < (List.range lut_size).length := by
    rw [List.length_range]
    exact hr
  rw [flatMap_getElem? (List.range lut_size) _ 1089
        (fun a _ => dataLines_inner_length b0 b1 a) r (g * 33 + b) hrlen (by omega)]
  rw [range_get]
  have hglen : g < (List.range lut_size).length := by
    rw [List.length_range]
    exact hg
  rw [flatMap_getElem? (List.range lut_size) _ 33
        (fun a _ => by rw [List.length_map, List.length_range, lut_size]) g b hglen hb]
  rw [range_get]
  rw [List.getElem?_map]
  rw [List.getElem?_range (show b < lut_size from hb)]
  rfl

/-! ### Evaluating the formatter on concrete values

`Rat` arithmetic does not reduce definitionally, so the concrete formatted
strings are computed through equations instead of `decide`. -/

theorem roundHalfEven_intCast (z : ℤ) : roundHalfEven (z : ℚ) = z := by
  rw [roundHalfEven]
  simp [Int.floor_intCast]

theorem format6_eval (q : ℚ) (m : ℕ) (hq : ¬ q < 0) (hm : |q| * 1000000 = (m : ℚ)) :
    format6 q = natStr (m / 1000000) ++ "." ++ padSix (m % 1000000) := by
  rw [format6, if_neg hq, hm]
  have h1 : roundHalfEven ((m : ℚ)) = (m : ℤ) := by
    have := roundHalfEven_intCast (m : ℤ)
    rwa [Int.cast_natCast] at this
  rw [h1, Int.toNat_natCast]
  rfl

theorem natStr_zero : natStr 0 = "0" := by
  simp [natStr, natDigits]
  rfl

theorem natStr_one : natStr 1 = "1" := by
  simp [natStr, natDigits]
  rfl

theorem natStr_500000 : natStr 500000 = "500000" := by
  simp [natStr, natDigits]
  rfl

theorem format6_zero : format6 0 = "0.000000" := by
  rw [format6_eval 0 0 (by norm_num) (by norm_num)]
  norm_num [natStr_zero, padSix]
  decide

theorem format6_one : format6 1 = "1.000000" := by
  rw [format6_eval 1 1000000 (by norm_num) (by norm_num)]
  norm_num [natStr_zero, natStr_one, padSix]
  decide

theorem format6_half : format6 (1/2) = "0.500000" := by
  rw [format6_eval (1/2) 500000 (by norm_num)
      (by rw [abs_of_nonneg (by norm_num : (0:ℚ) ≤ 1/2)]; norm_num)]
  norm_num [natStr_zero, natStr_500000, padSix]
  decide

/-! ### Claims -/

/-- C1: for every input whose `data.s.colorBalance` yields at least two
numbers `br, bg`, the grid entry at coordinates `(r, g, b)` with
`r, g, b < 33` equals `(r/32*br, g/32*bg, b/32*bg)` — the blue channel is
scaled by the green balance factor `bg`. -/
theorem C1_grid_entry (j : JValue) (br bg : ℚ)
    (_hbal : extractBalance j = some (br, bg))
    (r g b : ℕ) (_hr : r < 33) (_hg : g < 33) (_hb : b < 33) :
    lut br bg r g b = ((r : ℚ) / 32 * br, (g : ℚ) / 32 * bg, (b : ℚ) / 32 * bg) := by
  rw [lut, apply_color_balance]
  norm_num [lut_size]

theorem C1_grid_entry_witness :
    (extractBalance jTwo = some (2, 3) ∧ 1 < 33 ∧ 2 < 33 ∧ 3 < 33) ∧
    lut 2 3 1 2 3 = ((1 : ℚ) / 32 * 2, (2 : ℚ) / 32 * 3, (3 : ℚ) / 32 * 3) :=
  ⟨⟨rfl, by norm_num, by norm_num, by norm_num⟩,
    C1_grid_entry jTwo 2 3 rfl 1 2 3 (by norm_num) (by norm_num) (by norm_num)⟩

/-- C5: for every input in which `data.s.colorBalance` is missing at any
level of the path, conversion fails with an error carrying no output text
at all (the error result holds only a message, never a document). -/
theorem C5_missing_balance_errors (j : JValue) (h : getBalance j = none) :
    ∃ msg, convert_json_to_lut j = Except.error msg := by
  have hx : extractBalance j = none := by
    rw [extractBalance, h]
    rfl
  refine ⟨"Error processing JSON: missing or invalid colorBalance", ?_⟩
  simp only [convert_json_to_lut, hx]

theorem C5_missing_balance_errors_witness :
    getBalance jNoBal = none ∧
    ∃ msg, convert_json_to_lut jNoBal = Except.error msg :=
  ⟨rfl, C5_missing_balance_errors jNoBal rfl⟩

/-- C6 counterexample: the input whose name is the empty string converts
successfully — no `SerializationError` and no title validation occur, even
though the title is empty after trimming. -/
theorem C6_empty_title_cex :
    convert_json_to_lut jEmptyName = Except.ok (cubeText "" 1 1, "") ∧
    (∀ c ∈ ("" : String).data, c.isWhitespace = true) := ⟨rfl, by decide⟩

/-- C6 amended: the serializer performs no title validation at all — an
input whose name is empty or consists only of whitespace characters (so it
is empty after trimming) still converts successfully, with the title
embedded as-is. -/
theorem C6_no_title_validation (j : JValue) (b0 b1 : ℚ) (t : String)
    (h1 : extractBalance j = some (b0, b1)) (h2 : getName j = some (.str t))
    (_h3 : ∀ c ∈ t.data, c.isWhitespace = true) :
    convert_json_to_lut j = Except.ok (cubeText t b0 b1, t) := by
  simp only [convert_json_to_lut, h1, h2, pyStr]

theorem C6_no_title_validation_witness :
    (extractBalance jSpaceName = some (1, 1) ∧
     getName jSpaceName = some (.str " ") ∧
     (∀ c ∈ (" " : String).data, c.isWhitespace = true)) ∧
    convert_json_to_lut jSpaceName = Except.ok (cubeText " " 1 1, " ") :=
  ⟨⟨rfl, rfl, by decide⟩,
    C6_no_title_validation jSpaceName 1 1 " " rfl rfl (by decide)⟩

/-- C7: conversion is deterministic — converting the same input twice
yields identical document text and suggested file name (the core is a pure
function of its input, with no mutable state). -/
theorem C7_deterministic (j : JValue) (t : String) :
    convert_json_to_lut j = convert_json_to_lut j ∧
    download_name t = download_name t := ⟨rfl, rfl⟩

/-- C2 counterexample: an input whose name contains a newline converts
successfully but its document holds 35940 newline-terminated lines, not
2 + 33³ = 35939. -/
theorem C2_line_count_cex :
    convert_json_to_lut jNL = Except.ok (cubeText "a\nb" 1 1, "a\nb") ∧
    countNewlines (cubeText "a\nb" 1 1) = 35940 ∧ 35940 ≠ 2 + 33 ^ 3 := by
  refine ⟨rfl, ?_, by norm_num⟩
  have h1 : countNewlines "a\nb" = 1 := by decide
  rw [countNewlines_cubeText, h1]

/-- C2 amended: for every input on which conversion succeeds and whose
rendered name contains no newline character, the produced document consists
of exactly 2 + 33³ newline-terminated lines; the second line is the
constant `LUT_3D_SIZE 33` and the resolution `lut_size = 33` is not derived
from the input. -/
theorem C2_line_count (j : JValue) (b0 b1 : ℚ) (v : JValue)
    (h1 : extractBalance j = some (b0, b1)) (h2 : getName j = some v)
    (h3 : countNewlines (pyStr v) = 0) :
    convert_json_to_lut j = Except.ok (cubeText (pyStr v) b0 b1, pyStr v) ∧
    countNewlines (cubeText (pyStr v) b0 b1) = 2 + 33 ^ 3 ∧
    (∃ rest, cubeLines (pyStr v) b0 b1 =
        ("TITLE \"" ++ pyStr v ++ "\"") :: ("LUT_3D_SIZE " ++ natStr lut_size) :: rest) ∧
    lut_size = 33 := by
  refine ⟨?_, ?_, ⟨dataLines b0 b1, rfl⟩, rfl⟩
  · simp only [convert_json_to_lut, h1, h2]
  · rw [countNewlines_cubeText, h3]
    norm_num

theorem C2_line_count_witness :
    (extractBalance jTest = some (1, 1/2) ∧ getName jTest = some (.str "Test") ∧
     countNewlines (pyStr (.str "Test")) = 0) ∧
    (convert_json_to_lut jTest = Except.ok (cubeText (pyStr (.str "Test")) 1 (1/2), pyStr (.str "Test")) ∧
     countNewlines (cubeText (pyStr (.str "Test")) 1 (1/2)) = 2 + 33 ^ 3 ∧
     (∃ rest, cubeLines (pyStr (.str "Test")) 1 (1/2) =
        ("TITLE \"" ++ pyStr (.str "Test") ++ "\"") ::
          ("LUT_3D_SIZE " ++ natStr lut_size) :: rest) ∧
     lut_size = 33) :=
  ⟨⟨rfl, rfl, by decide⟩, C2_line_count jTest 1 (1/2) (.str "Test") rfl rfl (by decide)⟩

/-- C3: for every successfully converted input, the data line at flat
position `r·33² + g·33 + b` is the line for grid entry `(r, g, b)` (red
outermost, blue innermost, ascending), every data line is three formatted
values joined by single spaces, and every formatted value consists of an
optional sign and integer digits, then a decimal point, then exactly six
digit characters, with no spaces or newlines anywhere in it. -/
theorem C3_data_line_format (j : JValue) (b0 b1 : ℚ)
    (_hbal : extractBalance j = some (b0, b1)) :
    (∀ r g b : ℕ, r < 33 → g < 33 → b < 33 →
        (dataLines b0 b1)[r * 1089 + g * 33 + b]? = some (dataLine (lut b0 b1 r g b))) ∧
    (∀ l ∈ dataLines b0 b1, ∃ x y z : ℚ,
        l = format6 x ++ " " ++ format6 y ++ " " ++ format6 z) ∧
    (∀ q : ℚ, ∃ s t : String, format6 q = s ++ "." ++ t ∧ t.length = 6 ∧
        (∀ c ∈ t.data, c.isDigit = true) ∧
        (∀ c ∈ s.data, c.isDigit = true ∨ c = '-') ∧
        ' ' ∉ (format6 q).data ∧ '\n' ∉ (format6 q).data) := by
  refine ⟨?_, ?_, ?_⟩
  · intro r g b hr hg hb
    exact dataLines_getElem? b0 b1 r g b hr hg hb
  · intro l hl
    obtain ⟨r, g, b, _, _, _, rfl⟩ := mem_dataLines b0 b1 l hl
    exact ⟨(lut b0 b1 r g b).1, (lut b0 b1 r g b).2.1, (lut b0 b1 r g b).2.2, rfl⟩
  · intro q
    refine ⟨(if q < 0 then "-" else "") ++
        natStr ((roundHalfEven (|q| * 1000000)).toNat / 1000000),
      padSix ((roundHalfEven (|q| * 1000000)).toNat % 1000000),
      format6_eq q, ?_, padSix_isDigit _, ?_, format6_no_space q, format6_no_newline q⟩
    · exact padSix_length _ (Nat.mod_lt _ (by norm_num))
    · intro c hc
      rw [String.data_append] at hc
      rcases List.mem_append.mp hc with h1 | h2
      · split at h1
        · have : c ∈ ['-'] := h1
          simp only [List.mem_singleton] at this
          right; exact this
        · have : c ∈ ([] : List Char) := h1
          simp at this
      · left; exact natStr_isDigit _ c h2

theorem C3_data_line_format_witness :
    extractBalance jTwo = some (2, 3) ∧
    ((∀ r g b : ℕ, r < 33 → g < 33 → b < 33 →
        (dataLines 2 3)[r * 1089 + g * 33 + b]? = some (dataLine (lut 2 3 r g b))) ∧
     (∀ l ∈ dataLines 2 3, ∃ x y z : ℚ,
        l = format6 x ++ " " ++ format6 y ++ " " ++ format6 z) ∧
     (∀ q : ℚ, ∃ s t : String, format6 q = s ++ "." ++ t ∧ t.length = 6 ∧
        (∀ c ∈ t.data, c.isDigit = true) ∧
        (∀ c ∈ s.data, c.isDigit = true ∨ c = '-') ∧
        ' ' ∉ (format6 q).data ∧ '\n' ∉ (format6 q).data)) :=
  ⟨rfl, C3_data_line_format jTwo 2 3 rfl⟩

/-- C4: the output depends only on the `name` value and the first two
`colorBalance` numbers — two inputs agreeing on those convert to identical
results — and such an input always converts successfully (in particular a
balance list with exactly two numeric elements succeeds). -/
theorem C4_depends_only_on_name_and_balance (j1 j2 : JValue) (p : ℚ × ℚ) (v : JValue)
    (h1 : extractBalance j1 = some p) (h2 : extractBalance j2 = some p)
    (h3 : getName j1 = some v) (h4 : getName j2 = some v) :
    convert_json_to_lut j1 = convert_json_to_lut j2 ∧
    ∃ text fname, convert_json_to_lut j1 = Except.ok (text, fname) := by
  obtain ⟨b0, b1⟩ := p
  constructor
  · simp only [convert_json_to_lut, h1, h2, h3, h4]
  · refine ⟨cubeText (pyStr v) b0 b1, pyStr v, ?_⟩
    simp only [convert_json_to_lut, h1, h3]

theorem C4_depends_only_on_name_and_balance_witness :
    (extractBalance jTwo = some (2, 3) ∧ extractBalance jTwoX = some (2, 3) ∧
     getName jTwo = some (.str "x") ∧ getName jTwoX = some (.str "x")) ∧
    (convert_json_to_lut jTwo = convert_json_to_lut jTwoX ∧
     ∃ text fname, convert_json_to_lut jTwo = Except.ok (text, fname)) :=
  ⟨⟨rfl, rfl, rfl, rfl⟩,
    C4_depends_only_on_name_and_balance jTwo jTwoX (2, 3) (.str "x") rfl rfl rfl rfl⟩

/-- C8 counterexample: on the spec's concrete input the generation
resolution is the constant 33, not 2 — the document carries 2 + 33³
newline-terminated lines, not 2 + 2³. -/
theorem C8_resolution_cex :
    convert_json_to_lut jTest = Except.ok (cubeText "Test" 1 (1/2), "Test") ∧
    countNewlines (cubeText "Test" 1 (1/2)) = 2 + 33 ^ 3 ∧
    2 + 33 ^ 3 ≠ 2 + 2 ^ 3 ∧ lut_size ≠ 2 := by
  refine ⟨rfl, ?_, by norm_num, by decide⟩
  have h0 : countNewlines "Test" = 0 := by decide
  rw [countNewlines_cubeText, h0]
  norm_num

/-- C8 amended: for the input
`{"name": "Test", "data": {"s": {"colorBalance": [1.0, 0.5, 0.5]}}}`
conversion succeeds (at the fixed generation resolution 33) and the data
lines include `0.000000 0.000000 0.000000` for the all-zero corner and
`1.000000 0.500000 0.500000` for the all-max corner. -/
theorem C8_concrete_scenario :
    convert_json_to_lut jTest = Except.ok (cubeText "Test" 1 (1/2), "Test") ∧
    "0.000000 0.000000 0.000000" ∈ dataLines 1 (1/2) ∧
    "1.000000 0.500000 0.500000" ∈ dataLines 1 (1/2) := by
  refine ⟨rfl, ?_, ?_⟩
  · have h := dataLine_mem 1 (1/2) 0 0 0 (by norm_num) (by norm_num) (by norm_num)
    have hz : lut 1 (1/2) 0 0 0 = (0, 0, 0) := by
      rw [lut, apply_color_balance]
      norm_num
    rw [hz] at h
    have he : dataLine ((0 : ℚ), (0 : ℚ), (0 : ℚ)) = "0.000000 0.000000 0.000000" := by
      rw [dataLine]
      simp only [format6_zero]
      rfl
    rwa [he] at h
  · have h := dataLine_mem 1 (1/2) 32 32 32 (by norm_num) (by norm_num) (by norm_num)
    have ho : lut 1 (1/2) 32 32 32 = (1, 1/2, 1/2) := by
      rw [lut, apply_color_balance]
      norm_num [lut_size]
    rw [ho] at h
    have he : dataLine ((1 : ℚ), (1 : ℚ)/2, (1 : ℚ)/2) = "1.000000 0.500000 0.500000" := by
      rw [dataLine]
      simp only [format6_one, format6_half]
      rfl
    rwa [he] at h

/-- C9 counterexample: the code replaces only the space character, not
every whitespace character — a title containing a tab keeps the tab in the
suggested file name, contradicting the whitespace-wide reading. -/
theorem C9_whitespace_cex :
    download_name "a\tb" = "a\tb.cube" ∧ download_name "a\tb" ≠ specFileName "a\tb" :=
  ⟨by decide, by decide⟩

/-- C9 amended: the suggested file base name replaces each space character
U+0020 of the title with an underscore (no other character is changed) and
appends ".cube"; this affects only the suggested file name — the returned
document embeds the unsanitized title in its TITLE line and the returned
name is the unsanitized title. -/
theorem C9_space_only_sanitization (j : JValue) (b0 b1 : ℚ) (v : JValue)
    (h1 : extractBalance j = some (b0, b1)) (h2 : getName j = some v) :
    convert_json_to_lut j = Except.ok (cubeText (pyStr v) b0 b1, pyStr v) ∧
    (download_name (pyStr v)).data =
      ((pyStr v).data.map fun c => if c = ' ' then '_' else c) ++ ".cube".data ∧
    (cubeLines (pyStr v) b0 b1).head? = some ("TITLE \"" ++ pyStr v ++ "\"") := by
  refine ⟨?_, ?_, rfl⟩
  · simp only [convert_json_to_lut, h1, h2]
  · rw [download_name, String.data_append]

theorem C9_space_only_sanitization_witness :
    (extractBalance jSpacedName = some (1, 1) ∧
     getName jSpacedName = some (.str "My LUT")) ∧
    (convert_json_to_lut jSpacedName =
        Except.ok (cubeText (pyStr (.str "My LUT")) 1 1, pyStr (.str "My LUT")) ∧
     (download_name (pyStr (.str "My LUT"))).data =
        ((pyStr (.str "My LUT")).data.map fun c => if c = ' ' then '_' else c) ++
          ".cube".data ∧
     (cubeLines (pyStr (.str "My LUT")) 1 1).head? =
        some ("TITLE \"" ++ pyStr (.str "My LUT") ++ "\"")) :=
  ⟨⟨rfl, rfl⟩, C9_space_only_sanitization jSpacedName 1 1 (.str "My LUT") rfl rfl⟩

/-- C10: the title is embedded verbatim and unescaped between double quotes
in the first line: an input whose name contains a double quote and a newline
converts successfully, the TITLE line contains them unescaped, and the
document's newline-terminated line count 35940 exceeds 2 + 33³. -/
theorem C10_verbatim_title :
    convert_json_to_lut jQuoteNL = Except.ok (cubeText "A\"B\nC" 1 1, "A\"B\nC") ∧
    (cubeLines "A\"B\nC" 1 1).head? = some ("TITLE \"" ++ "A\"B\nC" ++ "\"") ∧
    ('"' ∈ ("A\"B\nC" : String).data ∧ '\n' ∈ ("A\"B\nC" : String).data) ∧
    countNewlines (cubeText "A\"B\nC" 1 1) = 35940 ∧ 2 + 33 ^ 3 < 35940 := by
  refine ⟨?_, ?_, ⟨by decide, by decide⟩, ?_, by norm_num⟩
  · rfl
  · rfl
  · have h1 : countNewlines "A\"B\nC" = 1 := by decide
    rw [countNewlines_cubeText, h1]
